import Mathlib

/-!
Shallow embedding of the PIMS import pipeline, histogram engine and pyramid
model (Cytomine-ULiege/Cytomine-pims), with theorems checking the frozen
claims of the specification against the code.

Sources embedded:
- pims/api/histograms.py : parse_n_bins, is_power_of_2, HistogramConfig,
  _histogram_binning, histogram_formatter
- pims/files/image.py : Image.check_integrity, Image.value_range,
  Image.normalized_pyramid
- pims/importer/importer.py : FileImporter.notify, FileImporter.run,
  deploy_spatial, deploy_histogram, import_collection

External effects (filesystem, format plugins, celery tasks, numpy arrays)
are modelled by explicit environments; histograms are lists of natural
numbers; python exceptions are explicit error values.
-/

/-! ## Histogram engine (pims/api/histograms.py) -/

/-- Typed stand-in for the BadRequestException raised by the histogram API. -/
inductive ApiError
  | badRequest
deriving DecidableEq

/-- Result record of histogram_formatter, mirroring the dict returned at
pims/api/histograms.py lines 117-124. -/
structure FormattedHistogram where
  histogram : List Nat
  first_bin : Nat
  last_bin : Nat
  minimum : Nat
  maximum : Nat
  n_bins : Nat
deriving DecidableEq

/-- Embedding of parse_n_bins (histograms.py lines 91-92): clamp the
requested bin count to the raw histogram length. -/
def parse_n_bins (n_bins hist_len : Nat) : Nat :=
  if n_bins ≤ hist_len then n_bins else hist_len

/-- Embedding of is_power_of_2 (histograms.py lines 127-128):
that is (n & (n - 1) == 0) and n != 0 on python ints. -/
def is_power_of_2 (n : Nat) : Bool :=
  (n &&& (n - 1) == 0) && (n != 0)

/-- Embedding of the HistogramConfig dependency constructor
(histograms.py lines 131-152): rejects a bin count that is not a
power of two, otherwise the query parameters pass through. -/
def histogram_config (n_bins : Nat) (full_range : Bool) :
    Except ApiError (Nat × Bool) :=
  if !(is_power_of_2 n_bins) then Except.error ApiError.badRequest
  else Except.ok (n_bins, full_range)

/-- Embedding of Image.max_value (image.py lines 106-108). -/
def max_value (significant_bits : Nat) : Nat :=
  2 ^ significant_bits - 1

/-- Embedding of Image.value_range (image.py lines 110-112):
python range(0, max_value + 1), whose len is max_value + 1. -/
def value_range (significant_bits : Nat) : List Nat :=
  List.range (max_value significant_bits + 1)

/-- Embedding of _histogram_binning (histograms.py lines 95-101): reject the
request when n_bins does not divide the raw length, otherwise reshape the
raw histogram to (n_bins, L / n_bins) row-major and sum each row, i.e.
output bin i is the sum of the contiguous raw bins of block i. -/
def histogram_binning (hist : List Nat) (n_bins : Nat) :
    Except ApiError (List Nat) :=
  if hist.length % n_bins ≠ 0 then Except.error ApiError.badRequest
  else Except.ok ((List.range n_bins).map (fun i =>
    ((hist.drop (i * (hist.length / n_bins))).take (hist.length / n_bins)).sum))

/-- Modelled from the spec: argmin_nonzero (pims/files/histogram.py, not in
the excerpted sources) returns the index of the first non-zero bin, and 0
when every bin is zero (numpy argmax over an all-false mask is 0). -/
def argmin_nonzero (l : List Nat) : Nat :=
  (l.findIdx? (fun x => x != 0)).getD 0

/-- Modelled from the spec: argmax_nonzero (pims/files/histogram.py, not in
the excerpted sources) returns the index of the last non-zero bin, and
len - 1 when every bin is zero. -/
def argmax_nonzero (l : List Nat) : Nat :=
  l.length - 1 - ((l.reverse.findIdx? (fun x => x != 0)).getD 0)

/-- Python list slice l[a:b] for non-negative indices. -/
def pySlice (l : List Nat) (a b : Nat) : List Nat :=
  (l.drop a).take (b - a)

/-- Embedding of histogram_formatter (histograms.py lines 104-124). -/
def histogram_formatter (hist : List Nat) (bounds : Nat × Nat)
    (n_bins : Nat) (full_range : Bool) : Except ApiError FormattedHistogram :=
  if n_bins = hist.length then
    let bin_bounds := bounds
    let hist' := if !full_range then pySlice hist bin_bounds.1 (bin_bounds.2 + 1)
      else hist
    Except.ok ⟨hist', bin_bounds.1, bin_bounds.2, bounds.1, bounds.2, n_bins⟩
  else
    match histogram_binning hist n_bins with
    | Except.error e => Except.error e
    | Except.ok binned =>
      let bin_bounds := (argmin_nonzero binned, argmax_nonzero binned)
      let hist' := if !full_range then pySlice binned bin_bounds.1 (bin_bounds.2 + 1)
        else binned
      Except.ok ⟨hist', bin_bounds.1, bin_bounds.2, bounds.1, bounds.2, n_bins⟩

/-! ## Integrity check (pims/files/image.py, Image.check_integrity) -/

/-- The tuple of metadata attributes forced by Image.check_integrity
(image.py lines 278-283). -/
def integrity_attributes : List String :=
  ["width", "height", "depth", "duration", "n_channels", "pixel_type",
   "physical_size_x", "physical_size_y", "physical_size_z", "frame_rate",
   "description", "acquisition_datetime", "channels", "objective",
   "microscope",
   "associated_thumb", "associated_label", "associated_macro",
   "raw_metadata", "pyramid"]

/-- Loop body of Image.check_integrity: attribute accesses are modelled by
an oracle giving, for each attribute name, the raised error (if any).
On an error the pair is recorded; in lazy mode the accumulated list, which
holds exactly this first failure, is returned at once. -/
def check_integrity_go {E : Type} (lazy_mode : Bool)
    (attr : String → Option E) : List String → List (String × E)
  | [] => []
  | a :: rest =>
    match attr a with
    | some e =>
      if lazy_mode then [(a, e)]
      else (a, e) :: check_integrity_go lazy_mode attr rest
    | none => check_integrity_go lazy_mode attr rest

/-- Embedding of Image.check_integrity (image.py lines 262-291), restricted
to the metadata flag, the only block present in the source body. -/
def check_integrity {E : Type} (lazy_mode metadata : Bool)
    (attr : String → Option E) : List (String × E) :=
  if metadata then check_integrity_go lazy_mode attr integrity_attributes
  else []

/-! ## Pyramid model -/

/-- One resolution level of a pyramid. The downsampling factor described by
the spec is float-valued (base_width / tier_width) and is derivable from
tier 0, so it is not stored here. -/
structure PyramidTier where
  width : Nat
  height : Nat
  tile_width : Nat
  tile_height : Nat
deriving DecidableEq

/-- Modelled from the spec: normalized_pyramid
(pims/formats/utils/pyramid.py, not in the excerpted sources; called by
Image.normalized_pyramid at image.py lines 154-156). Starting from
(width, height), both dimensions are halved with floor division until both
are below min_tier_dim, one tier per halving step including the base; tile
dimensions are fixed at tile_size across tiers. The positivity guard on
min_tier_dim makes the recursion well-founded; the spec fixes a positive
minimum tier dimension. -/
def synthesize_normalized (width height min_tier_dim tile_size : Nat) :
    List PyramidTier :=
  if h : 0 < min_tier_dim ∧ (min_tier_dim ≤ width ∨ min_tier_dim ≤ height) then
    ⟨width, height, tile_size, tile_size⟩ ::
      synthesize_normalized (width / 2) (height / 2) min_tier_dim tile_size
  else
    [⟨width, height, tile_size, tile_size⟩]
termination_by width + height
decreasing_by
  rcases h with ⟨hm, hwh⟩
  rcases hwh with hw | hh
  · have h1 : width / 2 < width := Nat.div_lt_self (Nat.lt_of_lt_of_le hm hw) one_lt_two
    have h2 : height / 2 ≤ height := Nat.div_le_self height 2
    omega
  · have h1 : height / 2 < height := Nat.div_lt_self (Nat.lt_of_lt_of_le hm hh) one_lt_two
    have h2 : width / 2 ≤ width := Nat.div_le_self width 2
    omega

/-! ## Import pipeline (pims/importer/importer.py) -/

/-- Paths appearing in one import, abstracting the concrete filesystem
layout built by FileImporter: the pending file, the allocated upload
directory and the file moved into it, the processed subdirectory and its
role files, and the extracted-children directory. -/
inductive PPath
  | pendingFile
  | uploadDir
  | uploadFile (name : String)
  | processedDir
  | originalFile (ext : String)
  | spatialFile (ext : String)
  | histogramFile
  | extractedDir
deriving DecidableEq

/-- The capabilities of a matched format plugin that FileImporter.run
consults: its identifier, is_spatial, need_conversion, and the identifier
of the conversion target format. -/
structure ImageFormat where
  id : String
  isSpatial : Bool
  needConversion : Bool
  convExt : String
deriving DecidableEq

/-- Import events notified to the listeners, one constructor per
ImportEventType member used by importer.py, with the payload the source
passes along (paths, the detected format, the integrity error list).
The final catch-all handler notifies FILE_ERROR with upload_path, which
can still be None there, hence the optional payload. -/
inductive ImportEvent
  | START_DATA_EXTRACTION (p : PPath)
  | FILE_NOT_FOUND (p : PPath)
  | FILE_NOT_MOVED (p : PPath)
  | MOVED_PENDING_FILE (old new : PPath)
  | END_DATA_EXTRACTION (p : PPath)
  | START_FORMAT_DETECTION (p : PPath)
  | END_FORMAT_DETECTION (p : PPath) (fmt : ImageFormat)
  | ERROR_NO_FORMAT (p : PPath)
  | START_UNPACKING (p : PPath)
  | ERROR_UNPACKING (p : PPath)
  | END_UNPACKING (upload orig : PPath) (isCollection : Bool)
  | REGISTER_FILE (child : String) (upload : PPath)
  | START_INTEGRITY_CHECK (p : PPath)
  | ERROR_INTEGRITY_CHECK (p : PPath) (errs : List (String × Nat))
  | END_INTEGRITY_CHECK (p : PPath)
  | START_SPATIAL_DEPLOY (p : PPath)
  | START_CONVERSION (spatial upload : PPath)
  | ERROR_CONVERSION (p : PPath)
  | END_CONVERSION (p : PPath)
  | END_SPATIAL_DEPLOY (p : PPath)
  | START_HISTOGRAM_DEPLOY (p : PPath)
  | ERROR_HISTOGRAM (p : PPath)
  | END_HISTOGRAM_DEPLOY (p : PPath)
  | END_SUCCESSFUL_IMPORT (p : PPath)
  | FILE_ERROR (p : Option PPath)
deriving DecidableEq

/-- The typed terminal errors raised by FileImporter.run and its helpers:
FilepathNotFoundProblem, FileErrorProblem, NoMatchingFormatProblem,
ImageParsingProblem, FormatConversionProblem, NotImplementedError. -/
inductive ImportError
  | filepathNotFound
  | fileError
  | noMatchingFormat
  | imageParsing
  | formatConversion
  | notImplemented
deriving DecidableEq

/-- Outcomes of the external operations FileImporter.run performs; one
field per fallible filesystem or plugin call, in pipeline order. Attribute
accesses during integrity checks are oracles from attribute name to the
raised error code, if any. -/
structure RunEnv where
  isExtracted : Bool
  parentIsPendingArea : Bool
  pendingExists : Bool
  mkdirUploadOk : Bool
  uploadName : String
  moveOk : Bool
  trackSymlinkOk : Bool
  formatMatch : Option ImageFormat
  archiveMatch : Option ImageFormat
  extractOk : Bool
  postExtractFormat : Option ImageFormat
  moveMultiOk : Bool
  extractedSymlinkOk : Bool
  children : List String
  mkdirProcessedOk : Bool
  originalSymlinkOk : Bool
  originalAttr : String → Option Nat
  convertReported : Bool
  convertTargetExists : Bool
  spatialFormatMatch : Option ImageFormat
  spatialAttr : String → Option Nat
  spatialSymlinkOk : Bool
  histogramOk : Bool

/-- Embedding of FileImporter.deploy_spatial (importer.py lines 258-320).
Returns the events notified, the symlinks created, and either the produced
spatial path or the raised error. When conversion fails, the inner raise at
line 277 is itself caught by the enclosing except at line 278, so
ERROR_CONVERSION is notified twice before FormatConversionProblem
propagates. -/
def deploySpatial (env : RunEnv) (originalPath uploadPath : PPath)
    (fmt : ImageFormat) :
    List ImportEvent × List (PPath × PPath) × Except ImportError PPath :=
  if fmt.needConversion then
    let spatialPath := PPath.spatialFile fmt.convExt
    let ev := [ImportEvent.START_SPATIAL_DEPLOY originalPath,
               ImportEvent.START_CONVERSION spatialPath uploadPath]
    if !env.convertReported || !env.convertTargetExists then
      (ev ++ [ImportEvent.ERROR_CONVERSION spatialPath,
              ImportEvent.ERROR_CONVERSION spatialPath], [],
       Except.error ImportError.formatConversion)
    else
      let ev := ev ++ [ImportEvent.END_CONVERSION spatialPath,
                       ImportEvent.START_FORMAT_DETECTION spatialPath]
      match env.spatialFormatMatch with
      | none => (ev ++ [ImportEvent.ERROR_NO_FORMAT spatialPath], [],
                 Except.error ImportError.noMatchingFormat)
      | some sf =>
        let ev := ev ++ [ImportEvent.END_FORMAT_DETECTION spatialPath sf,
                         ImportEvent.START_INTEGRITY_CHECK spatialPath]
        let errs := check_integrity false true env.spatialAttr
        if errs ≠ [] then
          (ev ++ [ImportEvent.ERROR_INTEGRITY_CHECK spatialPath errs], [],
           Except.error ImportError.imageParsing)
        else
          (ev ++ [ImportEvent.END_INTEGRITY_CHECK spatialPath,
                  ImportEvent.END_SPATIAL_DEPLOY spatialPath], [],
           Except.ok spatialPath)
  else
    let spatialPath := PPath.spatialFile fmt.id
    if !env.spatialSymlinkOk then
      ([ImportEvent.START_SPATIAL_DEPLOY originalPath,
        ImportEvent.FILE_ERROR (some spatialPath)], [],
       Except.error ImportError.fileError)
    else
      ([ImportEvent.START_SPATIAL_DEPLOY originalPath,
        ImportEvent.END_SPATIAL_DEPLOY spatialPath],
       [(spatialPath, originalPath)], Except.ok spatialPath)

/-- Embedding of FileImporter.deploy_histogram (importer.py lines 322-343):
build_histogram_file either succeeds or raises, mapped to
FileErrorProblem. -/
def deployHistogram (env : RunEnv) :
    List ImportEvent × Except ImportError Unit :=
  if !env.histogramOk then
    ([ImportEvent.START_HISTOGRAM_DEPLOY PPath.histogramFile,
      ImportEvent.ERROR_HISTOGRAM PPath.histogramFile],
     Except.error ImportError.fileError)
  else
    ([ImportEvent.START_HISTOGRAM_DEPLOY PPath.histogramFile,
      ImportEvent.END_HISTOGRAM_DEPLOY PPath.histogramFile],
     Except.ok ())

/-- Embedding of FileImporter.import_collection (importer.py lines
372-417): every extracted child is registered and dispatched as an
independent task; the local list named imported is created empty, never
appended to, and returned after the blocking wait on the task group. -/
def importCollection (env : RunEnv) (uploadPath : PPath) :
    List ImportEvent × List PPath :=
  (env.children.map (fun child => ImportEvent.REGISTER_FILE child uploadPath),
   [])

/-- Tail of FileImporter.run from the original integrity check (importer.py
lines 226-250), shared by the plain single-file path and the multi-file
archive path. -/
def runFromIntegrityCheck (env : RunEnv) (fmt : ImageFormat)
    (originalPath uploadPath : PPath) :
    List ImportEvent × List (PPath × PPath) × Except ImportError (List PPath) :=
  let errs : List (String × Nat) := check_integrity false true env.originalAttr
  if errs ≠ [] then
    ([ImportEvent.START_INTEGRITY_CHECK originalPath,
      ImportEvent.ERROR_INTEGRITY_CHECK originalPath errs], [],
     Except.error ImportError.imageParsing)
  else
    let ev := [ImportEvent.START_INTEGRITY_CHECK originalPath,
               ImportEvent.END_INTEGRITY_CHECK originalPath]
    if fmt.isSpatial then
      let s := deploySpatial env originalPath uploadPath fmt
      match s.2.2 with
      | Except.error e => (ev ++ s.1, s.2.1, Except.error e)
      | Except.ok _ =>
        let hg := deployHistogram env
        match hg.2 with
        | Except.error e => (ev ++ s.1 ++ hg.1, s.2.1, Except.error e)
        | Except.ok _ =>
          (ev ++ s.1 ++ hg.1 ++ [ImportEvent.END_SUCCESSFUL_IMPORT uploadPath],
           s.2.1, Except.ok [uploadPath])
    else
      (ev, [], Except.error ImportError.notImplemented)

/-- Body of FileImporter.run (importer.py lines 115-250) without the final
catch-all handler: events notified, symlinks created, returned value or
raised error, and the value of upload_path when control left the body. -/
def runCore (env : RunEnv) (prefer_copy : Bool) :
    List ImportEvent × List (PPath × PPath) ×
      Except ImportError (List PPath) × Option PPath :=
  let ev0 := [ImportEvent.START_DATA_EXTRACTION PPath.pendingFile]
  if (!env.isExtracted && !env.parentIsPendingArea) || !env.pendingExists then
    (ev0 ++ [ImportEvent.FILE_NOT_FOUND PPath.pendingFile], [],
     Except.error ImportError.filepathNotFound, none)
  else if !env.mkdirUploadOk then
    (ev0 ++ [ImportEvent.FILE_ERROR (some PPath.uploadDir)], [],
     Except.error ImportError.fileError, none)
  else
    let uploadPath := PPath.uploadFile env.uploadName
    if !env.moveOk then
      (ev0 ++ [ImportEvent.FILE_NOT_MOVED PPath.pendingFile], [],
       Except.error ImportError.fileError, some uploadPath)
    else if !prefer_copy && env.isExtracted && !env.trackSymlinkOk then
      (ev0 ++ [ImportEvent.FILE_ERROR (some PPath.pendingFile)], [],
       Except.error ImportError.fileError, some uploadPath)
    else
      let lk0 := if !prefer_copy && env.isExtracted then
        [(PPath.pendingFile, uploadPath)] else []
      let ev1 := ev0 ++
        [ImportEvent.MOVED_PENDING_FILE PPath.pendingFile uploadPath,
         ImportEvent.END_DATA_EXTRACTION uploadPath,
         ImportEvent.START_FORMAT_DETECTION uploadPath]
      match env.formatMatch, env.archiveMatch with
      | none, none =>
        (ev1 ++ [ImportEvent.ERROR_NO_FORMAT uploadPath], lk0,
         Except.error ImportError.noMatchingFormat, some uploadPath)
      | some fmt, _ =>
        let ev2 := ev1 ++ [ImportEvent.END_FORMAT_DETECTION uploadPath fmt]
        if !env.mkdirProcessedOk then
          (ev2 ++ [ImportEvent.FILE_ERROR (some PPath.processedDir)], lk0,
           Except.error ImportError.fileError, some uploadPath)
        else
          let originalPath := PPath.originalFile fmt.id
          if !env.originalSymlinkOk then
            (ev2 ++ [ImportEvent.FILE_ERROR (some originalPath)], lk0,
             Except.error ImportError.fileError, some uploadPath)
          else
            let lk1 := lk0 ++ [(originalPath, uploadPath)]
            let t := runFromIntegrityCheck env fmt originalPath uploadPath
            (ev2 ++ t.1, lk1 ++ t.2.1, t.2.2, some uploadPath)
      | none, some af =>
        let ev2 := ev1 ++ [ImportEvent.END_FORMAT_DETECTION uploadPath af,
                           ImportEvent.START_UNPACKING uploadPath]
        if !env.mkdirProcessedOk then
          (ev1 ++ [ImportEvent.END_FORMAT_DETECTION uploadPath af,
                   ImportEvent.FILE_ERROR (some PPath.processedDir)], lk0,
           Except.error ImportError.fileError, some uploadPath)
        else if !env.extractOk then
          (ev2 ++ [ImportEvent.ERROR_UNPACKING uploadPath], lk0,
           Except.error ImportError.fileError, some uploadPath)
        else
          match env.postExtractFormat with
          | some mf =>
            let newOriginal := PPath.originalFile mf.id
            if !env.moveMultiOk then
              (ev2 ++ [ImportEvent.FILE_NOT_MOVED
                         (PPath.originalFile af.id)], lk0,
               Except.error ImportError.fileError, some uploadPath)
            else
              let ev3 := ev2 ++
                [ImportEvent.END_UNPACKING uploadPath newOriginal false]
              let t := runFromIntegrityCheck env mf newOriginal newOriginal
              (ev3 ++ t.1, lk0 ++ t.2.1, t.2.2, some newOriginal)
          | none =>
            let archOriginal := PPath.originalFile af.id
            if !env.extractedSymlinkOk then
              (ev2 ++ [ImportEvent.FILE_ERROR (some PPath.extractedDir)], lk0,
               Except.error ImportError.fileError, some uploadPath)
            else
              let c := importCollection env uploadPath
              (ev2 ++ c.1 ++
                 [ImportEvent.END_UNPACKING uploadPath archOriginal true],
               lk0 ++ [(PPath.extractedDir, archOriginal)],
               Except.ok c.2, some uploadPath)

/-- Full result of one FileImporter.run call. -/
structure RunResult where
  events : List ImportEvent
  links : List (PPath × PPath)
  result : Except ImportError (List PPath)

/-- Embedding of FileImporter.run (importer.py lines 95-256): the body plus
the final catch-all handler, which notifies FILE_ERROR with the current
upload_path and re-raises the same exception. -/
def runImporter (env : RunEnv) (prefer_copy : Bool) : RunResult :=
  let t := runCore env prefer_copy
  match t.2.2.1 with
  | Except.error e =>
    ⟨t.1 ++ [ImportEvent.FILE_ERROR t.2.2.2], t.2.1, Except.error e⟩
  | Except.ok v => ⟨t.1, t.2.1, Except.ok v⟩

/-! ## Observer protocol (FileImporter.notify, importer.py lines 88-93) -/

/-- Behaviour of one observer for one event method: the attribute lookup
fails (no such method), the handler runs and returns, the handler raises
AttributeError (indistinguishable, at the except clause, from a missing
method), or the handler raises some other exception, identified by a
code. -/
inductive HandlerOutcome
  | missing
  | handled
  | attributeError
  | raises (code : Nat)
deriving DecidableEq

/-- An observer maps each event method name to its behaviour. -/
def Observer : Type := String → HandlerOutcome

/-- An observer with no handler for any event. -/
def noOpObserver : Observer := fun _ => HandlerOutcome.missing

/-- Loop of FileImporter.notify starting at observer index i: getattr plus
the call are inside a try whose except catches only AttributeError, so a
missing method or a handler raising AttributeError logs a warning and the
loop continues, while any other exception propagates at once. Returns the
indices of the observers whose handler was invoked, and the code of the
propagated exception, if any. -/
def notifyFrom (method : String) : Nat → List Observer → List Nat × Option Nat
  | _, [] => ([], none)
  | i, o :: rest =>
    match o method with
    | HandlerOutcome.missing => notifyFrom method (i + 1) rest
    | HandlerOutcome.attributeError =>
      let r := notifyFrom method (i + 1) rest
      (i :: r.1, r.2)
    | HandlerOutcome.handled =>
      let r := notifyFrom method (i + 1) rest
      (i :: r.1, r.2)
    | HandlerOutcome.raises code => ([i], some code)

/-- Embedding of FileImporter.notify (importer.py lines 88-93). -/
def notify (loggers : List Observer) (method : String) : List Nat × Option Nat :=
  notifyFrom method 0 loggers

/-! ## Theorems for the pyramid model (claim C9) -/

/-- The synthesized pyramid always holds at least its base tier. -/
theorem synthesize_normalized_ne_nil (w h m t : Nat) :
    synthesize_normalized w h m t ≠ [] := by
  rw [synthesize_normalized]
  split <;> simp

/-- Tier 0 of the synthesized pyramid is the full-resolution image. -/
theorem synthesize_normalized_head (w h m t : Nat) :
    (synthesize_normalized w h m t).head? = some ⟨w, h, t, t⟩ := by
  rw [synthesize_normalized]
  split <;> simp

/-- Every pair of consecutive tiers is related by floor halving of both
dimensions. -/
theorem synthesize_normalized_chain (w h m t : Nat) :
    List.Chain' (fun a b : PyramidTier =>
      b.width = a.width / 2 ∧ b.height = a.height / 2)
      (synthesize_normalized w h m t) := by
  induction w, h, m, t using synthesize_normalized.induct with
  | case1 w h m t hguard ih =>
    rw [synthesize_normalized]
    rw [dif_pos hguard, List.chain'_cons']
    refine ⟨?_, ih⟩
    intro b hb
    rw [synthesize_normalized_head] at hb
    simp only [Option.mem_def, Option.some.injEq] at hb
    subst hb
    exact ⟨rfl, rfl⟩
  | case2 w h m t hguard =>
    rw [synthesize_normalized]
    rw [dif_neg hguard]
    exact List.chain'_singleton _

/-- With a positive minimum tier dimension, halving stops exactly when both
dimensions have fallen below it: the last tier has both sides below the
minimum. -/
theorem synthesize_normalized_last (w h m t : Nat) (hm : 0 < m) :
    ∀ tr, (synthesize_normalized w h m t).getLast? = some tr →
      tr.width < m ∧ tr.height < m := by
  induction w, h, m, t using synthesize_normalized.induct with
  | case1 w h m t hguard ih =>
    intro tr htr
    rw [synthesize_normalized, dif_pos hguard] at htr
    obtain ⟨x, xs, hxs⟩ :=
      List.exists_cons_of_ne_nil (synthesize_normalized_ne_nil (w / 2) (h / 2) m t)
    rw [hxs, List.getLast?_cons_cons, ← hxs] at htr
    exact ih hm tr htr
  | case2 w h m t hguard =>
    intro tr htr
    rw [synthesize_normalized, dif_neg hguard] at htr
    simp only [List.getLast?_singleton, Option.some.injEq] at htr
    subst htr
    simp only [not_and_or, not_or, not_lt, not_le] at hguard
    rcases hguard with hm0 | ⟨hw, hh⟩
    · omega
    · exact ⟨hw, hh⟩

/-- Claim C9, counterexample: at width 10, height 1000, min_tier_dim 100,
tile size 256, the base width is already below the minimum tier dimension,
yet the synthesized pyramid has five tiers, not one: halving only stops
once both dimensions are below the minimum. -/
theorem claim_C9_counterexample :
    (10 < 100 ∨ 1000 < 100) ∧
      (synthesize_normalized 10 1000 100 256).length ≠ 1 := by
  refine ⟨Or.inl (by norm_num), ?_⟩
  rw [synthesize_normalized, dif_pos (by norm_num)]
  have h1 := synthesize_normalized_ne_nil (10 / 2) (1000 / 2) 100 256
  simp only [List.length_cons, ne_eq, Nat.add_right_cancel_iff]
  simpa [List.length_eq_zero] using h1

/-- Claim C9 (amended): for a positive minimum tier dimension, normalized
pyramid synthesis is deterministic (two calls yield identical tier
sequences), tier 0 equals (w, h), each consecutive tier halves both
dimensions with integer floor division, the last tier is the first one
with both dimensions below the minimum, and the pyramid has exactly one
tier when both w and h are already below the minimum (when only one of
them is below it, halving continues until both are). -/
theorem claim_C9_pyramid_synthesis (w h m t : Nat) (hm : 0 < m) :
    synthesize_normalized w h m t = synthesize_normalized w h m t ∧
    (synthesize_normalized w h m t).head? = some ⟨w, h, t, t⟩ ∧
    (∀ i, ∀ hi : i < (synthesize_normalized w h m t).length - 1,
      ((synthesize_normalized w h m t).get ⟨i + 1, by omega⟩).width =
        ((synthesize_normalized w h m t).get ⟨i, by omega⟩).width / 2 ∧
      ((synthesize_normalized w h m t).get ⟨i + 1, by omega⟩).height =
        ((synthesize_normalized w h m t).get ⟨i, by omega⟩).height / 2) ∧
    (∀ tr, (synthesize_normalized w h m t).getLast? = some tr →
      tr.width < m ∧ tr.height < m) ∧
    (w < m ∧ h < m → synthesize_normalized w h m t = [⟨w, h, t, t⟩]) := by
  refine ⟨rfl, synthesize_normalized_head w h m t, ?_, ?_, ?_⟩
  · intro i hi
    have hc := List.chain'_iff_get.mp (synthesize_normalized_chain w h m t) i hi
    exact ⟨hc.1, hc.2⟩
  · exact synthesize_normalized_last w h m t hm
  · intro hb
    rw [synthesize_normalized, dif_neg (by omega)]

/-- Witness for claim C9 at a concrete pyramid. -/
theorem claim_C9_pyramid_synthesis_witness :
    0 < 100 ∧
    (synthesize_normalized 1000 500 100 256 =
        synthesize_normalized 1000 500 100 256 ∧
      (synthesize_normalized 1000 500 100 256).head? = some ⟨1000, 500, 256, 256⟩ ∧
      (∀ i, ∀ hi : i < (synthesize_normalized 1000 500 100 256).length - 1,
        ((synthesize_normalized 1000 500 100 256).get ⟨i + 1, by omega⟩).width =
          ((synthesize_normalized 1000 500 100 256).get ⟨i, by omega⟩).width / 2 ∧
        ((synthesize_normalized 1000 500 100 256).get ⟨i + 1, by omega⟩).height =
          ((synthesize_normalized 1000 500 100 256).get ⟨i, by omega⟩).height / 2) ∧
      (∀ tr, (synthesize_normalized 1000 500 100 256).getLast? = some tr →
        tr.width < 100 ∧ tr.height < 100) ∧
      (1000 < 100 ∧ 500 < 100 →
        synthesize_normalized 1000 500 100 256 = [⟨1000, 500, 256, 256⟩])) :=
  ⟨by norm_num, claim_C9_pyramid_synthesis 1000 500 100 256 (by norm_num)⟩

/-! ## Theorems for the histogram engine (claims C2, C3, C10) -/

/-- Claim C2: for a raw histogram of length L and a requested bin count
strictly smaller than L, a bin count that does not evenly divide L makes
the query fail with the invalid-bin-count error, both in the binning step
and through histogram_formatter, and the formatter can only return a
downsampled histogram when the bin count divides L: it never silently
truncates. -/
theorem claim_C2_binning_rejects_nondivisor (hist : List Nat)
    (bounds : Nat × Nat) (n_bins : Nat) (full_range : Bool)
    (hlt : n_bins < hist.length) :
    (hist.length % n_bins ≠ 0 →
      histogram_binning hist n_bins = Except.error ApiError.badRequest ∧
      histogram_formatter hist bounds n_bins full_range =
        Except.error ApiError.badRequest) ∧
    (∀ r, histogram_formatter hist bounds n_bins full_range = Except.ok r →
      hist.length % n_bins = 0) := by
  have hne : n_bins ≠ hist.length := Nat.ne_of_lt hlt
  constructor
  · intro hmod
    constructor
    · simp [histogram_binning, hmod]
    · simp [histogram_formatter, histogram_binning, hne, hmod]
  · intro r hr
    by_contra hmod
    simp [histogram_formatter, histogram_binning, hne, hmod] at hr

/-- Witness for claim C2 on a histogram of length 6 and 4 requested bins. -/
theorem claim_C2_binning_rejects_nondivisor_witness :
    (4 : Nat) < ([1, 2, 3, 4, 5, 6] : List Nat).length ∧
    ((([1, 2, 3, 4, 5, 6] : List Nat).length % 4 ≠ 0 →
      histogram_binning [1, 2, 3, 4, 5, 6] 4 = Except.error ApiError.badRequest ∧
      histogram_formatter [1, 2, 3, 4, 5, 6] (0, 5) 4 false =
        Except.error ApiError.badRequest) ∧
    (∀ r, histogram_formatter [1, 2, 3, 4, 5, 6] (0, 5) 4 false = Except.ok r →
      ([1, 2, 3, 4, 5, 6] : List Nat).length % 4 = 0)) :=
  ⟨by norm_num,
   claim_C2_binning_rejects_nondivisor [1, 2, 3, 4, 5, 6] (0, 5) 4 false
     (by norm_num)⟩

/-- Bitwise and of an even number with its predecessor, in terms of the
halves. -/
theorem land_pred_even (m : Nat) (hm : 0 < m) :
    (2 * m) &&& (2 * m - 1) = 2 * (m &&& (m - 1)) := by
  apply Nat.eq_of_testBit_eq
  intro i
  cases i with
  | zero =>
    rw [Nat.testBit_land]
    simp [Nat.testBit_zero, Nat.mul_mod_right]
  | succ j =>
    rw [Nat.testBit_land, Nat.testBit_succ, Nat.testBit_succ, Nat.testBit_succ]
    have h1 : 2 * m / 2 = m := by omega
    have h2 : (2 * m - 1) / 2 = m - 1 := by omega
    have h3 : 2 * (m &&& (m - 1)) / 2 = m &&& (m - 1) := by omega
    rw [h1, h2, h3, Nat.testBit_land]

/-- Bitwise and of an odd number with its predecessor, in terms of the
half. -/
theorem land_pred_odd (m : Nat) : (2 * m + 1) &&& (2 * m) = 2 * m := by
  apply Nat.eq_of_testBit_eq
  intro i
  cases i with
  | zero =>
    rw [Nat.testBit_land]
    simp [Nat.testBit_zero, Nat.mul_mod_right]
  | succ j =>
    rw [Nat.testBit_land, Nat.testBit_succ, Nat.testBit_succ]
    have h1 : (2 * m + 1) / 2 = m := by omega
    have h2 : 2 * m / 2 = m := by omega
    rw [h1, h2, Bool.and_self]

/-- A nonzero number whose bitwise and with its predecessor vanishes is a
power of two. -/
theorem pow2_of_land_pred_eq_zero :
    ∀ n : Nat, n ≠ 0 → n &&& (n - 1) = 0 → ∃ k, n = 2 ^ k := by
  intro n
  induction n using Nat.strong_induction_on with
  | _ n ih =>
    intro hn0 hland
    rcases Nat.even_or_odd n with he | ho
    · obtain ⟨m, hm⟩ := he
      have hm2 : n = 2 * m := by omega
      have hmpos : 0 < m := by omega
      rw [hm2, land_pred_even m hmpos] at hland
      obtain ⟨k, hk⟩ := ih m (by omega) (by omega) (by omega)
      exact ⟨k + 1, by rw [hm2, hk]; ring⟩
    · obtain ⟨m, hm⟩ := ho
      rw [hm, show 2 * m + 1 - 1 = 2 * m by omega, land_pred_odd m] at hland
      have hm0 : m = 0 := by omega
      exact ⟨0, by omega⟩

/-- A power of two shares no set bit with its predecessor. -/
theorem land_pred_eq_zero_of_pow2 (k : Nat) : (2 ^ k) &&& (2 ^ k - 1) = 0 := by
  apply Nat.eq_of_testBit_eq
  intro i
  rw [Nat.testBit_land, Nat.testBit_two_pow, Nat.testBit_two_pow_sub_one,
    Nat.zero_testBit]
  by_cases h : k = i
  · subst h
    simp
  · simp [h]

/-- The is_power_of_2 validator of the histogram API accepts exactly the
powers of two. -/
theorem is_power_of_2_iff (n : Nat) : is_power_of_2 n = true ↔ ∃ k, n = 2 ^ k := by
  unfold is_power_of_2
  rw [Bool.and_eq_true, beq_iff_eq, bne_iff_ne]
  constructor
  · rintro ⟨h1, h2⟩
    exact pow2_of_land_pred_eq_zero n h2 h1
  · rintro ⟨k, rfl⟩
    refine ⟨land_pred_eq_zero_of_pow2 k, ?_⟩
    have := Nat.two_pow_pos k
    omega

/-- Claim C10: the histogram query validator accepts exactly the powers of
two, a non-power-of-two bin count is rejected with the bad-request error,
the raw histogram length equals 2 to the significant bits, and the
effective bin count (after the parse_n_bins clamp) is always a power of
two and never exceeds 2 to the significant bits; in particular a power of
two larger than the raw length is clamped down to the raw length. -/
theorem claim_C10_effective_bin_count :
    (∀ n, is_power_of_2 n = true ↔ ∃ k, n = 2 ^ k) ∧
    (∀ n_bins full_range, ¬(∃ k, n_bins = 2 ^ k) →
      histogram_config n_bins full_range = Except.error ApiError.badRequest) ∧
    (∀ sb, (value_range sb).length = 2 ^ sb) ∧
    (∀ n_bins sb, (∃ k, n_bins = 2 ^ k) →
      (∃ j, parse_n_bins n_bins (value_range sb).length = 2 ^ j) ∧
      parse_n_bins n_bins (value_range sb).length ≤ 2 ^ sb) ∧
    (∀ n_bins sb, 2 ^ sb < n_bins →
      parse_n_bins n_bins (value_range sb).length = 2 ^ sb) := by
  have hlen : ∀ sb, (value_range sb).length = 2 ^ sb := by
    intro sb
    have := Nat.two_pow_pos sb
    simp only [value_range, List.length_range, max_value]
    omega
  refine ⟨is_power_of_2_iff, ?_, hlen, ?_, ?_⟩
  · intro n_bins full_range hnp
    have hfalse : is_power_of_2 n_bins = false := by
      rcases h : is_power_of_2 n_bins with _ | _
      · rfl
      · exact absurd ((is_power_of_2_iff n_bins).mp h) hnp
    simp [histogram_config, hfalse]
  · rintro n_bins sb ⟨k, rfl⟩
    rw [parse_n_bins, hlen]
    split
    · exact ⟨⟨k, rfl⟩, by assumption⟩
    · exact ⟨⟨sb, rfl⟩, le_refl _⟩
  · intro n_bins sb hlt
    rw [parse_n_bins, hlen]
    split
    · omega
    · rfl

/-- Witness for claim C10: bin count 6 is rejected; bin count 1024 on an
8-bit image is clamped to 256. -/
theorem claim_C10_effective_bin_count_witness :
    histogram_config 6 false = Except.error ApiError.badRequest ∧
    (∃ j, parse_n_bins 1024 (value_range 8).length = 2 ^ j) ∧
    parse_n_bins 1024 (value_range 8).length ≤ 2 ^ 8 ∧
    parse_n_bins 1024 (value_range 8).length = 2 ^ 8 :=
  ⟨claim_C10_effective_bin_count.2.1 6 false
      (fun hex => absurd ((claim_C10_effective_bin_count.1 6).mpr hex)
        (by decide)),
   (claim_C10_effective_bin_count.2.2.2.1 1024 8 ⟨10, by norm_num⟩).1,
   (claim_C10_effective_bin_count.2.2.2.1 1024 8 ⟨10, by norm_num⟩).2,
   claim_C10_effective_bin_count.2.2.2.2 1024 8 (by norm_num)⟩

/-! ## Theorems for the observer protocol (claim C4) -/

/-- Every index returned by the dispatch loop is at least the start
index. -/
theorem notifyFrom_lb (m : String) :
    ∀ (L : List Observer) (i j : Nat), j ∈ (notifyFrom m i L).1 → i ≤ j := by
  intro L
  induction L with
  | nil => intro i j hj; simp [notifyFrom] at hj
  | cons o rest ih =>
    intro i j hj
    simp only [notifyFrom] at hj
    cases h : o m with
    | missing =>
      rw [h] at hj
      exact Nat.le_of_succ_le (ih (i + 1) j hj)
    | handled =>
      rw [h] at hj
      rcases List.mem_cons.mp hj with rfl | hj2
      · exact le_refl j
      · exact Nat.le_of_succ_le (ih (i + 1) j hj2)
    | attributeError =>
      rw [h] at hj
      rcases List.mem_cons.mp hj with rfl | hj2
      · exact le_refl j
      · exact Nat.le_of_succ_le (ih (i + 1) j hj2)
    | raises c =>
      rw [h] at hj
      rcases List.mem_singleton.mp hj with rfl
      exact le_refl j

/-- The indices returned by the dispatch loop are strictly increasing:
observers are reached in registration order. -/
theorem notifyFrom_pairwise (m : String) :
    ∀ (L : List Observer) (i : Nat),
      List.Pairwise (· < ·) (notifyFrom m i L).1 := by
  intro L
  induction L with
  | nil => intro i; simp [notifyFrom]
  | cons o rest ih =>
    intro i
    simp only [notifyFrom]
    cases h : o m with
    | missing => exact ih (i + 1)
    | handled =>
      refine List.Pairwise.cons ?_ (ih (i + 1))
      intro j hj
      exact Nat.lt_of_succ_le (notifyFrom_lb m rest (i + 1) j hj)
    | attributeError =>
      refine List.Pairwise.cons ?_ (ih (i + 1))
      intro j hj
      exact Nat.lt_of_succ_le (notifyFrom_lb m rest (i + 1) j hj)
    | raises c => simp

/-- The dispatch loop propagates an exception precisely when some observer
handler raises one that is not an AttributeError. -/
theorem notifyFrom_none_iff (m : String) :
    ∀ (L : List Observer) (i : Nat),
      (notifyFrom m i L).2 = none ↔
        ∀ o ∈ L, ∀ c, o m ≠ HandlerOutcome.raises c := by
  intro L
  induction L with
  | nil => intro i; simp [notifyFrom]
  | cons o rest ih =>
    intro i
    simp only [notifyFrom]
    cases h : o m with
    | missing =>
      rw [ih (i + 1)]
      simp only [List.forall_mem_cons, h]
      simp
    | handled =>
      rw [show ((i :: (notifyFrom m (i + 1) rest).1,
          (notifyFrom m (i + 1) rest).2).2 = (notifyFrom m (i + 1) rest).2)
        from rfl, ih (i + 1)]
      simp only [List.forall_mem_cons, h]
      simp
    | attributeError =>
      rw [show ((i :: (notifyFrom m (i + 1) rest).1,
          (notifyFrom m (i + 1) rest).2).2 = (notifyFrom m (i + 1) rest).2)
        from rfl, ih (i + 1)]
      simp only [List.forall_mem_cons, h]
      simp
    | raises c =>
      simp only [List.forall_mem_cons, h]
      constructor
      · intro hc
        simp at hc
      · intro hall
        exact absurd rfl (hall.1 c)

/-- Under no propagating exception, the dispatch loop visits exactly the
observers that expose a handler, shifted by the start index. -/
theorem notifyFrom_mem (m : String) :
    ∀ (L : List Observer) (i : Nat),
      (∀ o ∈ L, ∀ c, o m ≠ HandlerOutcome.raises c) →
      ∀ j, j ∈ (notifyFrom m i L).1 ↔
        ∃ d, d < L.length ∧ j = i + d ∧
          (L.getD d noOpObserver) m ≠ HandlerOutcome.missing := by
  intro L
  induction L with
  | nil => intro i hno j; simp [notifyFrom]
  | cons o rest ih =>
    intro i hno j
    have hno2 : ∀ o2 ∈ rest, ∀ c, o2 m ≠ HandlerOutcome.raises c :=
      fun o2 ho2 => hno o2 (List.mem_cons_of_mem _ ho2)
    simp only [notifyFrom]
    cases h : o m with
    | missing =>
      rw [ih (i + 1) hno2 j]
      constructor
      · rintro ⟨d, hd, rfl, hni⟩
        refine ⟨d + 1, by simpa using hd, by omega, ?_⟩
        simpa using hni
      · rintro ⟨d, hd, rfl, hni⟩
        cases d with
        | zero => simp [h] at hni
        | succ d2 =>
          refine ⟨d2, by simpa using hd, by omega, ?_⟩
          simpa using hni
    | handled =>
      rw [List.mem_cons, ih (i + 1) hno2 j]
      constructor
      · rintro (rfl | ⟨d, hd, rfl, hni⟩)
        · exact ⟨0, by simp, by omega, by simp [h]⟩
        · refine ⟨d + 1, by simpa using hd, by omega, ?_⟩
          simpa using hni
      · rintro ⟨d, hd, rfl, hni⟩
        cases d with
        | zero => left; omega
        | succ d2 =>
          right
          refine ⟨d2, by simpa using hd, by omega, ?_⟩
          simpa using hni
    | attributeError =>
      rw [List.mem_cons, ih (i + 1) hno2 j]
      constructor
      · rintro (rfl | ⟨d, hd, rfl, hni⟩)
        · exact ⟨0, by simp, by omega, by simp [h]⟩
        · refine ⟨d + 1, by simpa using hd, by omega, ?_⟩
          simpa using hni
      · rintro ⟨d, hd, rfl, hni⟩
        cases d with
        | zero => left; omega
        | succ d2 =>
          right
          refine ⟨d2, by simpa using hd, by omega, ?_⟩
          simpa using hni
    | raises c => exact absurd h (hno o (List.mem_cons_self o rest) c)

/-- An observer whose handlers all run and return. -/
def obsHandled : Observer := fun _ => HandlerOutcome.handled

/-- An observer whose handlers all raise a non-AttributeError exception. -/
def obsRaises7 : Observer := fun _ => HandlerOutcome.raises 7

/-- A sample event method name. -/
def methodName : String := "end_successful_import"

/-- Claim C4, counterexample: with three observers, making the second
handler raise a non-AttributeError exception changes the dispatch
behaviour: the exception propagates out of notify and the third observer
is never reached, whereas with an all-succeeding observer list every
observer is reached and nothing propagates. The control flow of the
pipeline step calling notify therefore depends on observer success or
failure. -/
theorem claim_C4_counterexample :
    notify [obsHandled, obsHandled, obsHandled] methodName = ([0, 1, 2], none) ∧
    notify [obsHandled, obsRaises7, obsHandled] methodName = ([0, 1], some 7) ∧
    (([0, 1], (some 7 : Option Nat)) ≠ ([0, 1, 2], (none : Option Nat))) := by
  refine ⟨rfl, rfl, by simp⟩

/-- Claim C4 (amended): the pipeline dispatches every event to every
observer in registration order, and an observer that lacks a handler for
the event kind (or whose handler raises AttributeError, indistinguishable
at the except clause) is skipped as a no-op; but this only holds as long
as no handler raises a different exception: notify propagates the first
non-AttributeError exception raised by a handler, skipping the remaining
observers, so the import outcome does depend on observer behaviour. -/
theorem claim_C4_observer_dispatch :
    (∀ (loggers : List Observer) (m : String),
      (∀ o ∈ loggers, ∀ c, o m ≠ HandlerOutcome.raises c) →
      (notify loggers m).2 = none ∧
      (∀ j, j ∈ (notify loggers m).1 ↔
        j < loggers.length ∧
          (loggers.getD j noOpObserver) m ≠ HandlerOutcome.missing) ∧
      List.Pairwise (· < ·) (notify loggers m).1) ∧
    (∀ (loggers : List Observer) (m : String),
      (notify loggers m).2 = none ↔
        ∀ o ∈ loggers, ∀ c, o m ≠ HandlerOutcome.raises c) := by
  constructor
  · intro loggers m hno
    refine ⟨(notifyFrom_none_iff m loggers 0).mpr hno, ?_, notifyFrom_pairwise m loggers 0⟩
    intro j
    rw [notify, notifyFrom_mem m loggers 0 hno j]
    constructor
    · rintro ⟨d, hd, rfl, hni⟩
      exact ⟨by omega, by simpa using hni⟩
    · rintro ⟨hj, hni⟩
      exact ⟨j, hj, by omega, hni⟩
  · intro loggers m
    exact notifyFrom_none_iff m loggers 0

/-- Witness for claim C4 on concrete observer lists. -/
theorem claim_C4_observer_dispatch_witness :
    ((notify [obsHandled, noOpObserver] methodName).2 = none ∧
      (∀ j, j ∈ (notify [obsHandled, noOpObserver] methodName).1 ↔
        j < ([obsHandled, noOpObserver] : List Observer).length ∧
          (([obsHandled, noOpObserver] : List Observer).getD j noOpObserver)
              methodName ≠ HandlerOutcome.missing) ∧
      List.Pairwise (· < ·) (notify [obsHandled, noOpObserver] methodName).1) ∧
    ((notify [obsHandled, obsRaises7] methodName).2 = none ↔
      ∀ o ∈ ([obsHandled, obsRaises7] : List Observer), ∀ c,
        o methodName ≠ HandlerOutcome.raises c) :=
  ⟨claim_C4_observer_dispatch.1 [obsHandled, noOpObserver] methodName
      (by
        intro o ho c
        rcases List.mem_pair.mp ho with rfl | rfl
        · simp [obsHandled]
        · simp [noOpObserver]),
   claim_C4_observer_dispatch.2 [obsHandled, obsRaises7] methodName⟩

/-! ## Theorems for the integrity check (claim C6) -/

/-- In non-lazy mode the loop records exactly the failing attributes. -/
theorem check_integrity_go_mem {E : Type} (attr : String → Option E) :
    ∀ (attrs : List String) (a : String) (e : E),
      (a, e) ∈ check_integrity_go false attr attrs ↔
        a ∈ attrs ∧ attr a = some e := by
  intro attrs
  induction attrs with
  | nil => intro a e; simp [check_integrity_go]
  | cons x rest ih =>
    intro a e
    simp only [check_integrity_go]
    cases h : attr x with
    | none =>
      rw [ih a e]
      simp only [List.mem_cons]
      constructor
      · rintro ⟨ha, he⟩
        exact ⟨Or.inr ha, he⟩
      · rintro ⟨rfl | ha, he⟩
        · rw [h] at he
          exact absurd he (by simp)
        · exact ⟨ha, he⟩
    | some ex =>
      simp only [Bool.false_eq_true, if_false, List.mem_cons, Prod.mk.injEq, ih a e]
      constructor
      · rintro (⟨rfl, rfl⟩ | ⟨ha, he⟩)
        · exact ⟨Or.inl rfl, h⟩
        · exact ⟨Or.inr ha, he⟩
      · rintro ⟨rfl | ha, he⟩
        · rw [h] at he
          left
          refine ⟨rfl, ?_⟩
          injection he with h2
          exact h2.symm
        · right
          exact ⟨ha, he⟩

/-- In lazy mode the loop returns nothing when every attribute passes, and
exactly the first failing attribute otherwise. -/
theorem check_integrity_go_lazy {E : Type} (attr : String → Option E) :
    ∀ attrs : List String,
      ((∀ a ∈ attrs, attr a = none) → check_integrity_go true attr attrs = []) ∧
      (∀ a, attrs.find? (fun x => (attr x).isSome) = some a →
        ∃ e, attr a = some e ∧ check_integrity_go true attr attrs = [(a, e)]) := by
  intro attrs
  induction attrs with
  | nil => simp [check_integrity_go]
  | cons x rest ih =>
    constructor
    · intro hall
      simp only [check_integrity_go]
      rw [hall x (List.mem_cons_self x rest)]
      exact ih.1 (fun a ha => hall a (List.mem_cons_of_mem _ ha))
    · intro a hfind
      rw [List.find?_cons] at hfind
      simp only [check_integrity_go]
      cases h : attr x with
      | some ex =>
        rw [h] at hfind
        simp only [Option.isSome_some, if_pos] at hfind
        injection hfind with hax
        subst hax
        exact ⟨ex, h, by simp⟩
      | none =>
        rw [h] at hfind
        simp only [Option.isSome_none, Bool.false_eq_true, if_false] at hfind
        exact ih.2 a hfind

/-- Claim C6: in non-lazy mode check_integrity records a pair for exactly
the attributes whose access raises, continuing across all attributes; in
lazy mode it returns nothing when every attribute passes and exactly the
first failing attribute otherwise; and the pipeline raises the image
parsing error precisely at a non-empty error list, once after the ORIGINAL
representation is checked and again after the SPATIAL representation is
checked (on the conversion path, where a separate spatial file exists). -/
theorem claim_C6_integrity_check :
    (∀ (E : Type) (attr : String → Option E) (a : String) (e : E),
      (a, e) ∈ check_integrity false true attr ↔
        a ∈ integrity_attributes ∧ attr a = some e) ∧
    (∀ (E : Type) (attr : String → Option E),
      ((∀ a ∈ integrity_attributes, attr a = none) →
        check_integrity true true attr = []) ∧
      (∀ a, integrity_attributes.find? (fun x => (attr x).isSome) = some a →
        ∃ e, attr a = some e ∧ check_integrity true true attr = [(a, e)])) ∧
    (∀ (env : RunEnv) (prefer_copy : Bool) (fmt : ImageFormat),
      ((!env.isExtracted && !env.parentIsPendingArea) || !env.pendingExists) = false →
      env.mkdirUploadOk = true → env.moveOk = true →
      (!prefer_copy && env.isExtracted && !env.trackSymlinkOk) = false →
      env.formatMatch = some fmt → env.mkdirProcessedOk = true →
      env.originalSymlinkOk = true →
      (check_integrity false true env.originalAttr ≠ [] →
        (runImporter env prefer_copy).result =
          Except.error ImportError.imageParsing ∧
        ImportEvent.ERROR_INTEGRITY_CHECK (PPath.originalFile fmt.id)
            (check_integrity false true env.originalAttr)
          ∈ (runImporter env prefer_copy).events) ∧
      (check_integrity false true env.originalAttr = [] →
        fmt.isSpatial = true → fmt.needConversion = true →
        env.convertReported = true → env.convertTargetExists = true →
        ∀ sf, env.spatialFormatMatch = some sf →
        check_integrity false true env.spatialAttr ≠ [] →
        (runImporter env prefer_copy).result =
          Except.error ImportError.imageParsing ∧
        ImportEvent.ERROR_INTEGRITY_CHECK (PPath.spatialFile fmt.convExt)
            (check_integrity false true env.spatialAttr)
          ∈ (runImporter env prefer_copy).events)) := by
  refine ⟨?_, ?_, ?_⟩
  · intro E attr a e
    rw [check_integrity, if_pos rfl]
    exact check_integrity_go_mem attr integrity_attributes a e
  · intro E attr
    rw [check_integrity, if_pos rfl]
    exact check_integrity_go_lazy attr integrity_attributes
  · intro env prefer_copy fmt h1 h2 h3 h4 h5 h6 h7
    constructor
    · intro herr
      simp [runImporter, runCore, runFromIntegrityCheck,
        h1, h2, h3, h4, h5, h6, h7, herr]
    · intro herr0 h8 h9 h10 h11 sf h12 herr
      simp [runImporter, runCore, runFromIntegrityCheck, deploySpatial,
        deployHistogram, h1, h2, h3, h4, h5, h6, h7, h8, h9, h10, h11, h12,
        herr0, herr]

/-- A single-file format that needs conversion before spatial reads. -/
def fmtConv : ImageFormat :=
  { id := "nd2", isSpatial := true, needConversion := true, convExt := "tif" }

/-- A spatially readable format that needs no conversion. -/
def fmtPlain : ImageFormat :=
  { id := "tif", isSpatial := true, needConversion := false, convExt := "" }

/-- A sample upload name. -/
def sampleName : String := "img"

/-- An environment in which every external operation succeeds and the
pending file matches a single-file format needing conversion. -/
def envBase : RunEnv :=
  { isExtracted := false, parentIsPendingArea := true, pendingExists := true,
    mkdirUploadOk := true, uploadName := sampleName, moveOk := true,
    trackSymlinkOk := true, formatMatch := some fmtConv, archiveMatch := none,
    extractOk := true, postExtractFormat := none, moveMultiOk := true,
    extractedSymlinkOk := true, children := [], mkdirProcessedOk := true,
    originalSymlinkOk := true, originalAttr := fun _ => none,
    convertReported := true, convertTargetExists := true,
    spatialFormatMatch := some fmtPlain, spatialAttr := fun _ => none,
    spatialSymlinkOk := true, histogramOk := true }

/-- An attribute oracle that fails on the width attribute only. -/
def oracleWidthFail : String → Option Nat :=
  fun a => if a = "width" then some 3 else none

/-- Witness for claim C6: the membership characterization at a failing
width attribute, and the pipeline raising on a failing original check. -/
theorem claim_C6_integrity_check_witness :
    (("width", 3) ∈ check_integrity false true oracleWidthFail ↔
      "width" ∈ integrity_attributes ∧ oracleWidthFail "width" = some 3) ∧
    ((∀ a ∈ integrity_attributes, (fun _ : String => (none : Option Nat)) a = none) →
      check_integrity true true (fun _ : String => (none : Option Nat)) = []) ∧
    ((runImporter { envBase with originalAttr := oracleWidthFail } false).result =
        Except.error ImportError.imageParsing ∧
      ImportEvent.ERROR_INTEGRITY_CHECK (PPath.originalFile fmtConv.id)
          (check_integrity false true
            ({ envBase with originalAttr := oracleWidthFail } : RunEnv).originalAttr)
        ∈ (runImporter { envBase with originalAttr := oracleWidthFail } false).events) :=
  ⟨claim_C6_integrity_check.1 Nat oracleWidthFail "width" 3,
   (claim_C6_integrity_check.2.1 Nat (fun _ => none)).1,
   (claim_C6_integrity_check.2.2 { envBase with originalAttr := oracleWidthFail }
      false fmtConv rfl rfl rfl rfl rfl rfl rfl).1 (by decide)⟩

/-! ## Theorems for the conversion step (claims C7, C8) -/

/-- When the identified format needs no conversion, deploy_spatial emits no
conversion start event. -/
theorem deploySpatial_no_conv (env : RunEnv) (op upp : PPath) (fmt : ImageFormat)
    (hnc : fmt.needConversion = false) :
    ∀ sp up, ImportEvent.START_CONVERSION sp up ∉ (deploySpatial env op upp fmt).1 := by
  intro sp up
  simp only [deploySpatial, hnc, Bool.false_eq_true, if_false]
  split <;> simp

/-- The histogram step emits no conversion start event. -/
theorem deployHistogram_no_conv (env : RunEnv) :
    ∀ sp up, ImportEvent.START_CONVERSION sp up ∉ (deployHistogram env).1 := by
  intro sp up
  simp only [deployHistogram]
  split <;> simp

/-- The pipeline tail emits no conversion start event when the format needs
no conversion. -/
theorem runFromIntegrityCheck_no_conv (env : RunEnv) (fmt : ImageFormat)
    (op upp : PPath) (hnc : fmt.needConversion = false) :
    ∀ sp up, ImportEvent.START_CONVERSION sp up ∉
      (runFromIntegrityCheck env fmt op upp).1 := by
  intro sp up
  simp only [runFromIntegrityCheck]
  repeat' split
  all_goals
    simp [deploySpatial_no_conv env op upp fmt hnc sp up,
      deployHistogram_no_conv env sp up]

/-- The run body emits no conversion start event when the matched format
needs no conversion. -/
theorem runCore_no_conv (env : RunEnv) (pc : Bool) (fmt : ImageFormat)
    (hfmt : env.formatMatch = some fmt) (hnc : fmt.needConversion = false) :
    ∀ sp up, ImportEvent.START_CONVERSION sp up ∉ (runCore env pc).1 := by
  intro sp up
  simp only [runCore, hfmt]
  repeat' split
  all_goals
    simp [runFromIntegrityCheck_no_conv env fmt
      (PPath.originalFile fmt.id) (PPath.uploadFile env.uploadName) hnc sp up]

/-- The whole import emits no conversion start event when the matched
format needs no conversion. -/
theorem runImporter_no_conv (env : RunEnv) (pc : Bool) (fmt : ImageFormat)
    (hfmt : env.formatMatch = some fmt) (hnc : fmt.needConversion = false) :
    ∀ sp up, ImportEvent.START_CONVERSION sp up ∉ (runImporter env pc).events := by
  intro sp up
  simp only [runImporter]
  split <;> simp [runCore_no_conv env pc fmt hfmt hnc sp up]

/-- Claim C7: for an import whose identified format needs conversion, when
the conversion call reports success but the target spatial file does not
exist afterwards, deploy_spatial produces exactly the output it produces
for a reported conversion failure: the conversion error events and the
FormatConversionProblem; through the pipeline the import fails with that
error. -/
theorem claim_C7_conversion_absent_target (env : RunEnv)
    (originalPath uploadPath : PPath) (fmt : ImageFormat)
    (hconv : fmt.needConversion = true)
    (hr : env.convertReported = true) (hex : env.convertTargetExists = false) :
    deploySpatial env originalPath uploadPath fmt =
      deploySpatial { env with convertReported := false }
        originalPath uploadPath fmt ∧
    (deploySpatial env originalPath uploadPath fmt).2.2 =
      Except.error ImportError.formatConversion ∧
    (deploySpatial env originalPath uploadPath fmt).1 =
      [ImportEvent.START_SPATIAL_DEPLOY originalPath,
       ImportEvent.START_CONVERSION (PPath.spatialFile fmt.convExt) uploadPath,
       ImportEvent.ERROR_CONVERSION (PPath.spatialFile fmt.convExt),
       ImportEvent.ERROR_CONVERSION (PPath.spatialFile fmt.convExt)] ∧
    (((!env.isExtracted && !env.parentIsPendingArea) || !env.pendingExists) = false →
      ∀ prefer_copy, env.mkdirUploadOk = true → env.moveOk = true →
      (!prefer_copy && env.isExtracted && !env.trackSymlinkOk) = false →
      env.formatMatch = some fmt → env.mkdirProcessedOk = true →
      env.originalSymlinkOk = true →
      check_integrity false true env.originalAttr = [] →
      fmt.isSpatial = true →
      (runImporter env prefer_copy).result =
        Except.error ImportError.formatConversion) := by
  refine ⟨?_, ?_, ?_, ?_⟩
  · simp [deploySpatial, hconv, hr, hex]
  · simp [deploySpatial, hconv, hr, hex]
  · simp [deploySpatial, hconv, hr, hex]
  · intro h1 prefer_copy h2 h3 h4 h5 h6 h7 herr h8
    simp [runImporter, runCore, runFromIntegrityCheck, deploySpatial,
      hconv, hr, hex, h1, h2, h3, h4, h5, h6, h7, herr, h8]

/-- Witness for claim C7: a conversion that reports success with an absent
target file, in an otherwise fully successful environment. -/
theorem claim_C7_conversion_absent_target_witness :
    (deploySpatial { envBase with convertTargetExists := false }
        (PPath.originalFile fmtConv.id) (PPath.uploadFile sampleName) fmtConv =
      deploySpatial
        { { envBase with convertTargetExists := false } with
            convertReported := false }
        (PPath.originalFile fmtConv.id) (PPath.uploadFile sampleName) fmtConv) ∧
    (deploySpatial { envBase with convertTargetExists := false }
        (PPath.originalFile fmtConv.id) (PPath.uploadFile sampleName)
        fmtConv).2.2 = Except.error ImportError.formatConversion ∧
    (runImporter { envBase with convertTargetExists := false } false).result =
      Except.error ImportError.formatConversion := by
  have h := claim_C7_conversion_absent_target
    { envBase with convertTargetExists := false }
    (PPath.originalFile fmtConv.id) (PPath.uploadFile sampleName) fmtConv
    rfl rfl rfl
  exact ⟨h.1, h.2.1,
    h.2.2.2 rfl false rfl rfl rfl rfl rfl rfl (by decide) rfl⟩

/-- Claim C8: when the identified format does not need conversion, the
CONVERT state is skipped entirely, no conversion start event reaching any
observer, and on success the SPATIAL role path is created as a symlink
alias of the ORIGINAL role path while the import returns normally. -/
theorem claim_C8_no_conversion_alias (env : RunEnv) (prefer_copy : Bool)
    (fmt : ImageFormat) (hfmt : env.formatMatch = some fmt)
    (hnc : fmt.needConversion = false) :
    (∀ sp up, ImportEvent.START_CONVERSION sp up ∉
      (runImporter env prefer_copy).events) ∧
    (((!env.isExtracted && !env.parentIsPendingArea) || !env.pendingExists) = false →
      env.mkdirUploadOk = true → env.moveOk = true →
      (!prefer_copy && env.isExtracted && !env.trackSymlinkOk) = false →
      env.mkdirProcessedOk = true → env.originalSymlinkOk = true →
      check_integrity false true env.originalAttr = [] →
      fmt.isSpatial = true → env.spatialSymlinkOk = true →
      env.histogramOk = true →
      (PPath.spatialFile fmt.id, PPath.originalFile fmt.id) ∈
        (runImporter env prefer_copy).links ∧
      (runImporter env prefer_copy).result =
        Except.ok [PPath.uploadFile env.uploadName]) := by
  refine ⟨runImporter_no_conv env prefer_copy fmt hfmt hnc, ?_⟩
  intro h1 h2 h3 h4 h5 h6 herr h7 h8 h9
  constructor <;>
    simp [runImporter, runCore, runFromIntegrityCheck, deploySpatial,
      deployHistogram, hfmt, hnc, h1, h2, h3, h4, h5, h6, herr, h7, h8, h9]

/-- Witness for claim C8: a fully successful import of a format that needs
no conversion. -/
theorem claim_C8_no_conversion_alias_witness :
    (∀ sp up, ImportEvent.START_CONVERSION sp up ∉
      (runImporter { envBase with formatMatch := some fmtPlain } false).events) ∧
    (PPath.spatialFile fmtPlain.id, PPath.originalFile fmtPlain.id) ∈
      (runImporter { envBase with formatMatch := some fmtPlain } false).links ∧
    (runImporter { envBase with formatMatch := some fmtPlain } false).result =
      Except.ok [PPath.uploadFile
        ({ envBase with formatMatch := some fmtPlain } : RunEnv).uploadName] := by
  have h := claim_C8_no_conversion_alias
    { envBase with formatMatch := some fmtPlain } false fmtPlain rfl rfl
  exact ⟨h.1, h.2 rfl rfl rfl rfl rfl rfl (by decide) rfl rfl rfl⟩

/-! ## Theorems for the conversion event stream (claim C5) -/

/-- Claim C5: a successful import of a single-file format that requires
conversion notifies exactly the eighteen pipeline events in order, and in
particular the stream contains, in this order, START_DATA_EXTRACTION,
MOVED_PENDING_FILE, END_FORMAT_DETECTION with the detected format,
START_CONVERSION, END_CONVERSION, END_INTEGRITY_CHECK,
END_HISTOGRAM_DEPLOY and END_SUCCESSFUL_IMPORT, while the SPATIAL role
file is a path distinct from the ORIGINAL role file. -/
theorem claim_C5_conversion_event_order (env : RunEnv) (prefer_copy : Bool)
    (fmt sf : ImageFormat)
    (h1 : ((!env.isExtracted && !env.parentIsPendingArea) || !env.pendingExists) = false)
    (h2 : env.mkdirUploadOk = true) (h3 : env.moveOk = true)
    (h4 : (!prefer_copy && env.isExtracted && !env.trackSymlinkOk) = false)
    (h5 : env.formatMatch = some fmt) (h6 : env.mkdirProcessedOk = true)
    (h7 : env.originalSymlinkOk = true)
    (herr0 : check_integrity false true env.originalAttr = [])
    (h8 : fmt.isSpatial = true) (h9 : fmt.needConversion = true)
    (h10 : env.convertReported = true) (h11 : env.convertTargetExists = true)
    (h12 : env.spatialFormatMatch = some sf)
    (herr1 : check_integrity false true env.spatialAttr = [])
    (h13 : env.histogramOk = true) :
    (runImporter env prefer_copy).events =
      [ImportEvent.START_DATA_EXTRACTION PPath.pendingFile,
       ImportEvent.MOVED_PENDING_FILE PPath.pendingFile
         (PPath.uploadFile env.uploadName),
       ImportEvent.END_DATA_EXTRACTION (PPath.uploadFile env.uploadName),
       ImportEvent.START_FORMAT_DETECTION (PPath.uploadFile env.uploadName),
       ImportEvent.END_FORMAT_DETECTION (PPath.uploadFile env.uploadName) fmt,
       ImportEvent.START_INTEGRITY_CHECK (PPath.originalFile fmt.id),
       ImportEvent.END_INTEGRITY_CHECK (PPath.originalFile fmt.id),
       ImportEvent.START_SPATIAL_DEPLOY (PPath.originalFile fmt.id),
       ImportEvent.START_CONVERSION (PPath.spatialFile fmt.convExt)
         (PPath.uploadFile env.uploadName),
       ImportEvent.END_CONVERSION (PPath.spatialFile fmt.convExt),
       ImportEvent.START_FORMAT_DETECTION (PPath.spatialFile fmt.convExt),
       ImportEvent.END_FORMAT_DETECTION (PPath.spatialFile fmt.convExt) sf,
       ImportEvent.START_INTEGRITY_CHECK (PPath.spatialFile fmt.convExt),
       ImportEvent.END_INTEGRITY_CHECK (PPath.spatialFile fmt.convExt),
       ImportEvent.END_SPATIAL_DEPLOY (PPath.spatialFile fmt.convExt),
       ImportEvent.START_HISTOGRAM_DEPLOY PPath.histogramFile,
       ImportEvent.END_HISTOGRAM_DEPLOY PPath.histogramFile,
       ImportEvent.END_SUCCESSFUL_IMPORT (PPath.uploadFile env.uploadName)] ∧
    [ImportEvent.START_DATA_EXTRACTION PPath.pendingFile,
     ImportEvent.MOVED_PENDING_FILE PPath.pendingFile
       (PPath.uploadFile env.uploadName),
     ImportEvent.END_FORMAT_DETECTION (PPath.uploadFile env.uploadName) fmt,
     ImportEvent.START_CONVERSION (PPath.spatialFile fmt.convExt)
       (PPath.uploadFile env.uploadName),
     ImportEvent.END_CONVERSION (PPath.spatialFile fmt.convExt),
     ImportEvent.END_INTEGRITY_CHECK (PPath.spatialFile fmt.convExt),
     ImportEvent.END_HISTOGRAM_DEPLOY PPath.histogramFile,
     ImportEvent.END_SUCCESSFUL_IMPORT (PPath.uploadFile env.uploadName)].Sublist
      (runImporter env prefer_copy).events ∧
    (runImporter env prefer_copy).result =
      Except.ok [PPath.uploadFile env.uploadName] ∧
    PPath.spatialFile fmt.convExt ≠ PPath.originalFile fmt.id := by
  have heq : (runImporter env prefer_copy).events =
      [ImportEvent.START_DATA_EXTRACTION PPath.pendingFile,
       ImportEvent.MOVED_PENDING_FILE PPath.pendingFile
         (PPath.uploadFile env.uploadName),
       ImportEvent.END_DATA_EXTRACTION (PPath.uploadFile env.uploadName),
       ImportEvent.START_FORMAT_DETECTION (PPath.uploadFile env.uploadName),
       ImportEvent.END_FORMAT_DETECTION (PPath.uploadFile env.uploadName) fmt,
       ImportEvent.START_INTEGRITY_CHECK (PPath.originalFile fmt.id),
       ImportEvent.END_INTEGRITY_CHECK (PPath.originalFile fmt.id),
       ImportEvent.START_SPATIAL_DEPLOY (PPath.originalFile fmt.id),
       ImportEvent.START_CONVERSION (PPath.spatialFile fmt.convExt)
         (PPath.uploadFile env.uploadName),
       ImportEvent.END_CONVERSION (PPath.spatialFile fmt.convExt),
       ImportEvent.START_FORMAT_DETECTION (PPath.spatialFile fmt.convExt),
       ImportEvent.END_FORMAT_DETECTION (PPath.spatialFile fmt.convExt) sf,
       ImportEvent.START_INTEGRITY_CHECK (PPath.spatialFile fmt.convExt),
       ImportEvent.END_INTEGRITY_CHECK (PPath.spatialFile fmt.convExt),
       ImportEvent.END_SPATIAL_DEPLOY (PPath.spatialFile fmt.convExt),
       ImportEvent.START_HISTOGRAM_DEPLOY PPath.histogramFile,
       ImportEvent.END_HISTOGRAM_DEPLOY PPath.histogramFile,
       ImportEvent.END_SUCCESSFUL_IMPORT (PPath.uploadFile env.uploadName)] := by
    simp [runImporter, runCore, runFromIntegrityCheck, deploySpatial,
      deployHistogram, h1, h2, h3, h4, h5, h6, h7, herr0, h8, h9, h10, h11,
      h12, herr1, h13]
  refine ⟨heq, ?_, ?_, by simp⟩
  · rw [heq]
    apply List.Sublist.cons₂
    apply List.Sublist.cons₂
    apply List.Sublist.cons
    apply List.Sublist.cons
    apply List.Sublist.cons₂
    apply List.Sublist.cons
    apply List.Sublist.cons
    apply List.Sublist.cons
    apply List.Sublist.cons₂
    apply List.Sublist.cons₂
    apply List.Sublist.cons
    apply List.Sublist.cons
    apply List.Sublist.cons
    apply List.Sublist.cons₂
    apply List.Sublist.cons
    apply List.Sublist.cons
    apply List.Sublist.cons₂
    apply List.Sublist.cons₂
    exact List.Sublist.slnil
  · simp [runImporter, runCore, runFromIntegrityCheck, deploySpatial,
      deployHistogram, h1, h2, h3, h4, h5, h6, h7, herr0, h8, h9, h10, h11,
      h12, herr1, h13]

/-- Witness for claim C5: the fully successful conversion import. -/
theorem claim_C5_conversion_event_order_witness :
    (runImporter envBase false).result =
      Except.ok [PPath.uploadFile envBase.uploadName] ∧
    [ImportEvent.START_DATA_EXTRACTION PPath.pendingFile,
     ImportEvent.MOVED_PENDING_FILE PPath.pendingFile
       (PPath.uploadFile envBase.uploadName),
     ImportEvent.END_FORMAT_DETECTION (PPath.uploadFile envBase.uploadName) fmtConv,
     ImportEvent.START_CONVERSION (PPath.spatialFile fmtConv.convExt)
       (PPath.uploadFile envBase.uploadName),
     ImportEvent.END_CONVERSION (PPath.spatialFile fmtConv.convExt),
     ImportEvent.END_INTEGRITY_CHECK (PPath.spatialFile fmtConv.convExt),
     ImportEvent.END_HISTOGRAM_DEPLOY PPath.histogramFile,
     ImportEvent.END_SUCCESSFUL_IMPORT
       (PPath.uploadFile envBase.uploadName)].Sublist
      (runImporter envBase false).events ∧
    PPath.spatialFile fmtConv.convExt ≠ PPath.originalFile fmtConv.id := by
  have h := claim_C5_conversion_event_order envBase false fmtConv fmtPlain
    rfl rfl rfl rfl rfl rfl rfl (by decide) rfl rfl rfl rfl rfl (by decide) rfl
  exact ⟨h.2.2.1, h.2.1, h.2.2.2⟩

/-! ## Theorems for the returned representations (claim C1) -/

/-- The pipeline tail can only return the upload path it was given. -/
theorem runFromIntegrityCheck_ok (env : RunEnv) (fmt : ImageFormat) (op upp : PPath) :
    ∀ l, (runFromIntegrityCheck env fmt op upp).2.2 = Except.ok l → l = [upp] := by
  intro l
  simp only [runFromIntegrityCheck]
  repeat' split
  all_goals intro hl
  all_goals simp_all

/-- A run body over a directly matched single-file format can only return
the singleton upload path. -/
theorem runCore_ok_single (env : RunEnv) (pc : Bool) (fmt : ImageFormat)
    (hfmt : env.formatMatch = some fmt) :
    ∀ l, (runCore env pc).2.2.1 = Except.ok l →
      l = [PPath.uploadFile env.uploadName] := by
  intro l
  simp only [runCore, hfmt]
  repeat' split
  all_goals intro hl
  all_goals
    first
      | exact runFromIntegrityCheck_ok env fmt (PPath.originalFile fmt.id)
          (PPath.uploadFile env.uploadName) l hl
      | simp_all

/-- A run body over an archive whose extracted content matches no
single-file format can only return the empty list. -/
theorem runCore_ok_coll (env : RunEnv) (pc : Bool) (af : ImageFormat)
    (hfmt : env.formatMatch = none) (harch : env.archiveMatch = some af)
    (hpost : env.postExtractFormat = none) :
    ∀ l, (runCore env pc).2.2.1 = Except.ok l → l = [] := by
  intro l
  simp only [runCore, hfmt, harch, hpost]
  repeat' split
  all_goals intro hl
  all_goals simp_all [importCollection]

/-- A format under which the upload is recognized only as an archive. -/
def fmtZip : ImageFormat :=
  { id := "zip", isSpatial := false, needConversion := false, convExt := "" }

/-- A collection environment: the upload is an archive, its extracted tree
matches no single-file format, and it holds two importable children. -/
def envColl : RunEnv :=
  { envBase with
    formatMatch := none
    archiveMatch := some fmtZip
    children := ["a", "b"] }

/-- Claim C1, counterexample: a collection import with two children whose
dispatch succeeds returns the empty list, not one entry per imported
child: import_collection creates the list named imported, never appends to
it, and returns it. -/
theorem claim_C1_counterexample :
    envColl.children.length = 2 ∧
    (runImporter envColl false).result = Except.ok [] ∧
    ([] : List PPath).length ≠ envColl.children.length := by
  refine ⟨rfl, rfl, by decide⟩

/-- Claim C1 (amended): on success, run returns the singleton list holding
the upload path when the upload directly matches a single-file format, and
the empty list for a collection import: the children are dispatched as
independent tasks and their per-child results are not collected into the
returned list. -/
theorem claim_C1_run_return_values :
    (∀ (env : RunEnv) (prefer_copy : Bool) (fmt : ImageFormat),
      env.formatMatch = some fmt →
      ∀ l, (runImporter env prefer_copy).result = Except.ok l →
        l = [PPath.uploadFile env.uploadName]) ∧
    (∀ (env : RunEnv) (prefer_copy : Bool) (af : ImageFormat),
      env.formatMatch = none → env.archiveMatch = some af →
      env.postExtractFormat = none →
      ∀ l, (runImporter env prefer_copy).result = Except.ok l → l = []) := by
  constructor
  · intro env pc fmt hfmt l hl
    simp only [runImporter] at hl
    revert hl
    split
    · intro hl
      simp at hl
    · rename_i v heq
      intro hl
      simp only [Except.ok.injEq] at hl
      subst hl
      exact runCore_ok_single env pc fmt hfmt _ heq
  · intro env pc af hfmt harch hpost l hl
    simp only [runImporter] at hl
    revert hl
    split
    · intro hl
      simp at hl
    · rename_i v heq
      intro hl
      simp only [Except.ok.injEq] at hl
      subst hl
      exact runCore_ok_coll env pc af hfmt harch hpost _ heq

/-- Witness for claim C1: the single-image environment returns its upload
path and the collection environment returns the empty list. -/
theorem claim_C1_run_return_values_witness :
    [PPath.uploadFile sampleName] = [PPath.uploadFile envBase.uploadName] ∧
    (([] : List PPath) = []) :=
  ⟨claim_C1_run_return_values.1 envBase false fmtConv rfl
      [PPath.uploadFile sampleName] rfl,
   claim_C1_run_return_values.2 envColl false fmtZip rfl rfl rfl [] rfl⟩

/-! ## Theorems for histogram downsampling (claim C3) -/

/-- Summing each of the n contiguous blocks of size k and then adding the
block sums gives back the total sum. -/
theorem sum_chunks : ∀ (n k : Nat) (l : List Nat), l.length = n * k →
    ((List.range n).map (fun i => ((l.drop (i * k)).take k).sum)).sum = l.sum := by
  intro n
  induction n with
  | zero =>
    intro k l hl
    have h0 : l = [] := List.length_eq_zero.mp (by omega)
    subst h0
    simp
  | succ n ih =>
    intro k l hl
    rw [List.range_succ_eq_map]
    simp only [List.map_cons, List.map_map, List.sum_cons, Nat.zero_mul,
      List.drop_zero]
    have hcongr : (List.range n).map
        ((fun i => ((l.drop (i * k)).take k).sum) ∘ Nat.succ) =
        (List.range n).map (fun i => (((l.drop k).drop (i * k)).take k).sum) := by
      apply List.map_congr_left
      intro i hi
      simp only [Function.comp_apply]
      rw [show Nat.succ i * k = k + i * k from by rw [Nat.succ_mul]; omega]
      rw [← List.drop_drop (i * k) k l]
    rw [hcongr, ih k (l.drop k)
      (by rw [List.length_drop, hl, Nat.succ_mul]; omega)]
    exact List.sum_take_add_sum_drop l k

/-- Characterization of a successful findIdx? search from a start index:
the found index is in range, its element satisfies the predicate, and all
earlier elements fail it. -/
theorem findIdx?_spec (p : Nat → Bool) :
    ∀ (l : List Nat) (s j : Nat), List.findIdx? p l s = some j →
      s ≤ j ∧ j - s < l.length ∧ p (l.getD (j - s) 0) = true ∧
        ∀ i, i < j - s → p (l.getD i 0) = false := by
  intro l
  induction l with
  | nil => intro s j h; simp at h
  | cons a rest ih =>
    intro s j h
    rw [List.findIdx?_cons] at h
    by_cases hpa : p a
    · rw [if_pos hpa] at h
      injection h with hj
      subst hj
      refine ⟨le_refl s, by simp, by simpa using hpa, ?_⟩
      intro i hi
      exact absurd hi (by omega)
    · rw [if_neg hpa] at h
      obtain ⟨hs, hlt, hp, hall⟩ := ih (s + 1) j h
      refine ⟨by omega, by simp; omega, ?_, ?_⟩
      · rw [show j - s = (j - (s + 1)) + 1 from by omega]
        simpa using hp
      · intro i hi
        cases i with
        | zero =>
          simp only [List.getD_cons_zero]
          exact Bool.eq_false_iff.mpr hpa
        | succ i2 =>
          have h2 := hall i2 (by omega)
          simpa using h2

/-- A list holding an element satisfying the predicate makes findIdx?
succeed from any start index. -/
theorem findIdx?_isSome (p : Nat → Bool) :
    ∀ (l : List Nat) (s : Nat), (∃ x ∈ l, p x = true) →
      ∃ j, List.findIdx? p l s = some j := by
  intro l
  induction l with
  | nil => intro s h; simp at h
  | cons a rest ih =>
    intro s h
    rw [List.findIdx?_cons]
    by_cases hpa : p a
    · exact ⟨s, by rw [if_pos hpa]⟩
    · rw [if_neg hpa]
      apply ih (s + 1)
      rcases h with ⟨x, hx, hpx⟩
      rcases List.mem_cons.mp hx with rfl | hx2
      · exact absurd hpx hpa
      · exact ⟨x, hx2, hpx⟩

/-- On a histogram with some non-zero bin, argmin_nonzero is the index of
the first non-zero bin. -/
theorem argmin_nonzero_spec (l : List Nat) (hnz : ∃ x ∈ l, x ≠ 0) :
    argmin_nonzero l < l.length ∧ l.getD (argmin_nonzero l) 0 ≠ 0 ∧
      ∀ j, j < argmin_nonzero l → l.getD j 0 = 0 := by
  have hex : ∃ x ∈ l, (fun x => x != 0) x = true := by
    rcases hnz with ⟨x, hx, hx0⟩
    exact ⟨x, hx, by simpa using hx0⟩
  obtain ⟨j, hj⟩ := findIdx?_isSome (fun x => x != 0) l 0 hex
  obtain ⟨hs, hlt, hp, hall⟩ := findIdx?_spec (fun x => x != 0) l 0 j hj
  have hargmin : argmin_nonzero l = j := by
    rw [argmin_nonzero, hj]
    rfl
  rw [hargmin]
  rw [Nat.sub_zero] at hlt hp
  refine ⟨hlt, by simpa using hp, ?_⟩
  intro i hi
  have h2 := hall i (by omega)
  simpa using h2

/-- Element access through a reversed list. -/
theorem getD_reverse (l : List Nat) (i : Nat) (h : i < l.length) :
    l.reverse.getD i 0 = l.getD (l.length - 1 - i) 0 := by
  rw [List.getD_eq_getElem l.reverse 0 (by simpa using h),
    List.getD_eq_getElem l 0 (by omega)]
  exact List.getElem_reverse ..

/-- On a histogram with some non-zero bin, argmax_nonzero is the index of
the last non-zero bin. -/
theorem argmax_nonzero_spec (l : List Nat) (hnz : ∃ x ∈ l, x ≠ 0) :
    argmax_nonzero l < l.length ∧ l.getD (argmax_nonzero l) 0 ≠ 0 ∧
      ∀ j, argmax_nonzero l < j → j < l.length → l.getD j 0 = 0 := by
  have hnzr : ∃ x ∈ l.reverse, (fun x => x != 0) x = true := by
    rcases hnz with ⟨x, hx, hx0⟩
    exact ⟨x, List.mem_reverse.mpr hx, by simpa using hx0⟩
  obtain ⟨j, hj⟩ := findIdx?_isSome (fun x => x != 0) l.reverse 0 hnzr
  obtain ⟨hs, hlt, hp, hall⟩ := findIdx?_spec (fun x => x != 0) l.reverse 0 j hj
  rw [Nat.sub_zero] at hlt hp
  have hlen : l.reverse.length = l.length := List.length_reverse l
  have hjl : j < l.length := by omega
  have hargmax : argmax_nonzero l = l.length - 1 - j := by
    rw [argmax_nonzero, hj]
    rfl
  rw [hargmax]
  refine ⟨by omega, ?_, ?_⟩
  · rw [← getD_reverse l j hjl]
    simpa using hp
  · intro j2 hgt hlt2
    have h2 := hall (l.length - 1 - j2) (by omega)
    rw [getD_reverse l (l.length - 1 - j2) (by omega)] at h2
    rw [show l.length - 1 - (l.length - 1 - j2) = j2 from by omega] at h2
    simpa using h2

/-- Claim C3: for a stored raw histogram with tight bounds and a power of
two bin count at most the raw length, histogram_formatter downsamples by
summing contiguous blocks when the bin count strictly divides the length:
the downsampled histogram has n_bins bins, each the sum of L / n_bins
contiguous raw bins, the total count is preserved, and first_bin and
last_bin are recomputed as the first and last non-zero bin of the
downsampled histogram; when n_bins equals the raw length the stored tight
bounds are returned unchanged; in both cases full_range false truncates
the returned array to the bins from first_bin to last_bin inclusive and
full_range true returns the entire array unmodified. -/
theorem claim_C3_histogram_formatter (hist : List Nat) (b0 b1 n_bins : Nat)
    (fr : Bool)
    (hpow : ∃ k, n_bins = 2 ^ k) (hle : n_bins ≤ hist.length)
    (hnz : ∃ x ∈ hist, x ≠ 0) (hb0 : b0 ≤ b1) (hb1 : b1 < hist.length) :
    (n_bins < hist.length → hist.length % n_bins = 0 →
      ∃ ds r, histogram_binning hist n_bins = Except.ok ds ∧
        histogram_formatter hist (b0, b1) n_bins fr = Except.ok r ∧
        ds.length = n_bins ∧
        ds.sum = hist.sum ∧
        (∀ i, i < n_bins → ds.getD i 0 =
          ((hist.drop (i * (hist.length / n_bins))).take
            (hist.length / n_bins)).sum) ∧
        r.n_bins = n_bins ∧ r.first_bin = argmin_nonzero ds ∧
        r.last_bin = argmax_nonzero ds ∧
        r.first_bin < n_bins ∧ r.last_bin < n_bins ∧
        ds.getD r.first_bin 0 ≠ 0 ∧ (∀ j, j < r.first_bin → ds.getD j 0 = 0) ∧
        ds.getD r.last_bin 0 ≠ 0 ∧
        (∀ j, r.last_bin < j → j < n_bins → ds.getD j 0 = 0) ∧
        (fr = true → r.histogram = ds) ∧
        (fr = false → r.histogram = pySlice ds r.first_bin (r.last_bin + 1))) ∧
    (n_bins = hist.length →
      ∃ r, histogram_formatter hist (b0, b1) n_bins fr = Except.ok r ∧
        r.first_bin = b0 ∧ r.last_bin = b1 ∧ r.n_bins = n_bins ∧
        (fr = true → r.histogram = hist) ∧
        (fr = false → r.histogram = pySlice hist b0 (b1 + 1) ∧
          r.histogram.length = b1 - b0 + 1 ∧
          (∀ i, i ≤ b1 - b0 → r.histogram.getD i 0 = hist.getD (b0 + i) 0))) := by
  constructor
  · intro hlt hmod
    have hne : n_bins ≠ hist.length := Nat.ne_of_lt hlt
    set ds : List Nat := (List.range n_bins).map (fun i =>
      ((hist.drop (i * (hist.length / n_bins))).take
        (hist.length / n_bins)).sum) with hds
    have hbin : histogram_binning hist n_bins = Except.ok ds := by
      rw [histogram_binning, if_neg (by simp [hmod])]
    have hlen : ds.length = n_bins := by
      rw [hds]
      simp
    have hsum : ds.sum = hist.sum := by
      rw [hds]
      exact sum_chunks n_bins (hist.length / n_bins) hist
        (Nat.mul_div_cancel' (Nat.dvd_of_mod_eq_zero hmod)).symm
    have hdnz : ∃ x ∈ ds, x ≠ 0 := by
      by_contra hc
      push_neg at hc
      have hz : ds.sum = 0 := List.sum_eq_zero_iff.mpr hc
      rw [hsum] at hz
      rcases hnz with ⟨x, hx, hx0⟩
      exact hx0 (List.sum_eq_zero_iff.mp hz x hx)
    obtain ⟨hminlt, hminnz, hminall⟩ := argmin_nonzero_spec ds hdnz
    obtain ⟨hmaxlt, hmaxnz, hmaxall⟩ := argmax_nonzero_spec ds hdnz
    have hform : histogram_formatter hist (b0, b1) n_bins fr = Except.ok
        ⟨if !fr then pySlice ds (argmin_nonzero ds) (argmax_nonzero ds + 1)
          else ds,
         argmin_nonzero ds, argmax_nonzero ds, b0, b1, n_bins⟩ := by
      rw [histogram_formatter, if_neg hne, hbin]
    refine ⟨ds,
      ⟨if !fr then pySlice ds (argmin_nonzero ds) (argmax_nonzero ds + 1)
        else ds,
       argmin_nonzero ds, argmax_nonzero ds, b0, b1, n_bins⟩,
      hbin, hform, hlen, hsum, ?_, rfl, rfl, rfl,
      (by show argmin_nonzero ds < n_bins; omega),
      (by show argmax_nonzero ds < n_bins; omega),
      hminnz, hminall, hmaxnz, ?_, ?_, ?_⟩
    · intro i hi
      rw [hds, List.getD_eq_getElem _ 0 (by simp [hi]), List.getElem_map,
        List.getElem_range]
    · intro j h1 h2
      exact hmaxall j h1 (by omega)
    · intro hfr
      simp [hfr]
    · intro hfr
      simp [hfr]
  · intro hnl
    refine ⟨⟨if !fr then pySlice hist b0 (b1 + 1) else hist,
      b0, b1, b0, b1, n_bins⟩, ?_, rfl, rfl, rfl, ?_, ?_⟩
    · rw [histogram_formatter, if_pos hnl]
    · intro hfr
      simp [hfr]
    · intro hfr
      simp only [hfr, Bool.not_false, if_pos]
      refine ⟨trivial, ?_, ?_⟩
      · simp only [pySlice, List.length_take, List.length_drop]
        omega
      · intro i hi
        have hlen2 : i < (pySlice hist b0 (b1 + 1)).length := by
          simp only [pySlice, List.length_take, List.length_drop]
          omega
        rw [pySlice] at hlen2 ⊢
        rw [List.getD_eq_getElem _ 0 hlen2,
          List.getD_eq_getElem _ 0 (by omega : b0 + i < hist.length),
          List.getElem_take, List.getElem_drop]

/-- Witness for claim C3: downsampling an 8-bin histogram into 4 bins. -/
theorem claim_C3_histogram_formatter_witness :
    ∃ ds r, histogram_binning [0, 0, 3, 4, 0, 0, 7, 0] 4 = Except.ok ds ∧
      histogram_formatter [0, 0, 3, 4, 0, 0, 7, 0] (2, 6) 4 false =
        Except.ok r ∧
      ds.length = 4 ∧
      ds.sum = ([0, 0, 3, 4, 0, 0, 7, 0] : List Nat).sum ∧
      (∀ i, i < 4 → ds.getD i 0 =
        ((([0, 0, 3, 4, 0, 0, 7, 0] : List Nat).drop
            (i * (([0, 0, 3, 4, 0, 0, 7, 0] : List Nat).length / 4))).take
          (([0, 0, 3, 4, 0, 0, 7, 0] : List Nat).length / 4)).sum) ∧
      r.n_bins = 4 ∧ r.first_bin = argmin_nonzero ds ∧
      r.last_bin = argmax_nonzero ds ∧
      r.first_bin < 4 ∧ r.last_bin < 4 ∧
      ds.getD r.first_bin 0 ≠ 0 ∧ (∀ j, j < r.first_bin → ds.getD j 0 = 0) ∧
      ds.getD r.last_bin 0 ≠ 0 ∧
      (∀ j, r.last_bin < j → j < 4 → ds.getD j 0 = 0) ∧
      (false = true → r.histogram = ds) ∧
      (false = false → r.histogram = pySlice ds r.first_bin (r.last_bin + 1)) :=
  (claim_C3_histogram_formatter [0, 0, 3, 4, 0, 0, 7, 0] 2 6 4 false
    ⟨2, by decide⟩ (by decide) ⟨3, by decide, by decide⟩ (by decide)
    (by decide)).1 (by decide) (by decide)
